import Mathlib

/-!
Verification development for the natpl evaluation core (src/runtime.rs).

Shallow embedding conventions:
* Rust `Name` (an interned string) is embedded as `String`.
* `BigDecimal` (arbitrary-precision decimal magnitudes) is embedded as `ℚ`
  with exact arithmetic; `is_integer` becomes `den = 1`.
* `HashSet<Name>` becomes `List String` with membership; `HashMap<Name, V>`
  becomes an association list `List (String × V)` read through `alistGet`
  and written with an insert-if-absent discipline, mirroring the entry API.
* Rust panics (the `todo` and `unimplemented` macros, `unwrap` on `None`,
  and the BigDecimal division-by-zero panic) are represented by an explicit
  `RtResult.panic` outcome distinct from the `Result::Err` channel.
* Source positions (`FC`) are opaque pass-through data never consumed by the
  core logic; they are omitted from the embedding, so error constructors
  carry everything except the position argument.
-/

/-- Panic message of the Rust todo macro (function calls and the Eq, Neq, Gt
infix arms are left unimplemented in the source). -/
def todoMsg : String := "not yet implemented"

/-- Panic message of the unimplemented macro in the floating-point power
branch of Runtime::eval_infix_op. -/
def fpPowMsg : String := "Floating point power is not implemented"

/-- Panic message of the bigdecimal crate when dividing by a zero magnitude
(BigDecimal has no infinity or NaN representation; its Div panics). -/
def divZeroMsg : String := "Division by zero"

/-- Panic message of unwrap on None (BigDecimal::to_isize out of range). -/
def unwrapMsg : String := "called unwrap on a None value"

/-- Outcome of a Rust computation that may return Ok, return Err, or panic.
The panic channel models process aborts, which are not catchable errors. -/
inductive RtResult (ε : Type) (α : Type) where
  | ok (a : α)
  | err (e : ε)
  | panic (msg : String)
deriving DecidableEq, Repr

/-- Association-list read, embedding HashMap::get / contains_key. -/
def alistGet {α : Type} : List (String × α) → String → Option α
  | [], _ => none
  | (k, v) :: rest, n => if k = n then some v else alistGet rest n

/-- Embedding of HashSet::insert: returns whether the element was new,
together with the set afterwards (unchanged when already present). -/
def hashsetInsert (n : String) (s : List String) : Bool × List String :=
  if n ∈ s then (false, s) else (true, n :: s)

/-- Modelled from the spec: the Unit type of term.rs (not under src/).
A Unit is a mapping from base-unit name to integer exponent, the
dimensionless unit being the empty mapping, and two Units are equal iff the
mappings agree after dropping zero exponents.  The embedding keeps the
canonical form directly: a list of (name, exponent) pairs strictly sorted by
name and containing no zero exponent, so list equality is mapping equality
on canonical values, which is all the evaluator ever constructs. -/
abbrev UnitV : Type := List (String × Int)

/-- Modelled from the spec: Unit::new(), the dimensionless unit. -/
def UnitV.new : UnitV := []

/-- Modelled from the spec: Unit::new_named(name), exponent 1 for name. -/
def UnitV.new_named (n : String) : UnitV := [(n, 1)]

/-- Exponent of a base-unit name in a Unit (0 when absent). -/
def UnitV.exponentOf (u : UnitV) (n : String) : Int :=
  (alistGet u n).getD 0

/-- Merge of two sorted exponent lists, adding the exponents of shared names
and dropping entries whose sum is zero. -/
def unitMerge : List (String × Int) → List (String × Int) → List (String × Int)
  | [], ys => ys
  | x :: xs, [] => x :: xs
  | (k1, e1) :: xs, (k2, e2) :: ys =>
    if k1 < k2 then (k1, e1) :: unitMerge xs ((k2, e2) :: ys)
    else if k2 < k1 then (k2, e2) :: unitMerge ((k1, e1) :: xs) ys
    else if e1 + e2 = 0 then unitMerge xs ys
    else (k1, e1 + e2) :: unitMerge xs ys
termination_by xs ys => xs.length + ys.length

/-- Modelled from the spec: Unit::multiply, exponent-wise sum dropping
zero results. -/
def UnitV.multiply (a b : UnitV) : UnitV := unitMerge a b

/-- Modelled from the spec: Unit::divide, exponent-wise difference dropping
zero results. -/
def UnitV.divide (a b : UnitV) : UnitV :=
  unitMerge a (b.map fun p => (p.1, -p.2))

/-- Modelled from the spec: Unit::pow, multiplying every exponent by an
integer n; n = 0 yields the dimensionless unit. -/
def UnitV.pow (u : UnitV) (n : Int) : UnitV :=
  if n = 0 then [] else u.map fun p => (p.1, p.2 * n)

/-- Modelled from the spec: ValueKind of term.rs — a numeric magnitude
(arbitrary-precision decimal, embedded as ℚ) or a function reference. -/
inductive ValueKind where
  | Number (d : ℚ)
  | FunctionRef (n : String)
deriving DecidableEq, Repr

/-- Modelled from the spec: Value of term.rs — a kind paired with a Unit. -/
structure Value where
  kind : ValueKind
  unit : UnitV
deriving DecidableEq, Repr

/-- SI prefix tags of syntax.rs. -/
inductive SiPrefix where
  | Femto | Pico | Nano | Micro | Milli | Centi | Deci
  | Deca | Hecto | Kilo | Mega | Giga | Tera | Peta
deriving DecidableEq, Repr

/-- The prefix operators of syntax.rs. -/
inductive PrefixOp where
  | Pos | Neg
deriving DecidableEq, Repr

/-- The infix operators of syntax.rs. -/
inductive InfixOp where
  | Add | Sub | Mul | Div | Mod | Pow | Eq | Neq | Gt
deriving DecidableEq, Repr

/-- Modelled from the spec: the Expression tree of syntax.rs.  A bare-name
reference (MaybeUnitPrefix) carries the base name, the full literal name,
and the SI-prefix decomposition supplied by the parser.  Constructors for
the prefix and infix nodes are suffixed with E to avoid clashing with the
operator type names. -/
inductive Expression where
  | IntegerLit (val : ℚ)
  | FloatLit (val : ℚ)
  | MaybeUnitPrefix (name : String) (full_name : String) (pfx : SiPrefix)
  | Variable (id : String)
  | Call (base : Expression) (args : List Expression)
  | PrefixOpE (op : PrefixOp) (e : Expression)
  | InfixOpE (op : InfixOp) (lhs rhs : Expression)
  | UnitOf (e : Expression)
  | Parenthesised (e : Expression)

/-- Modelled from the spec: the ambiguous line form name = expr (with an
optional parameter list on the name) that section 4.4 classifies against
the current evaluation state. -/
structure DeclOrEq where
  name : String
  args : Option (List String)
  rhs : Expression

/-- Modelled from the spec: DeclarationOrEquality::declaration_name, the
left-hand name of the ambiguous line. -/
def DeclOrEq.declaration_name (d : DeclOrEq) : String := d.name

/-- The classified statement type Item of syntax.rs. -/
inductive Item where
  | UnitDeclaration (name : String)
  | VariableDeclaration (name : String) (rhs : Expression)
  | FunctionDeclaration (name : String) (arg_names : List String) (rhs : Expression)
  | PrintedExpression (e : Expression)
  | SilentExpression (e : Expression)

/-- Modelled from the spec: DeclarationOrEquality::into_expression —
reinterpret the ambiguous line as the equality expression name == rhs. -/
def DeclOrEq.into_expression (d : DeclOrEq) : Item :=
  Item.SilentExpression (Expression.InfixOpE InfixOp.Eq (Expression.Variable d.name) d.rhs)

/-- Modelled from the spec: DeclarationOrEquality::into_declaration — a
FunctionDeclaration when the name carries a parameter list, else a
VariableDeclaration. -/
def DeclOrEq.into_declaration (d : DeclOrEq) : Item :=
  match d.args with
  | some ps => Item.FunctionDeclaration d.name ps d.rhs
  | none => Item.VariableDeclaration d.name d.rhs

/-- The raw parsed line type LineItem of syntax.rs. -/
inductive LineItem where
  | Empty
  | UnitDeclaration (name : String)
  | MaybeDeclarationOrEqualityExpression (decl : DeclOrEq)
  | PrintedExpression (e : Expression)
  | SilentExpression (e : Expression)

/-- The evaluation outcome type EvalResult of runtime.rs. -/
inductive EvalResult where
  | Empty
  | Value (v : Value)
  | PrintValue (e : Expression) (v : Value)

/-- The unit-algebra error type UnitError of runtime.rs (positions omitted). -/
inductive UnitError where
  | IncompatibleUnits (op : InfixOp) (lu ru : UnitV)
  | InvalidPowerValue (lu : UnitV) (rk : ValueKind)
deriving DecidableEq, Repr

/-- The expression-evaluation error type EvalError of runtime.rs. -/
inductive EvalError where
  | UndefinedName (n : String)
  | InvalidPrefixOperator (op : PrefixOp) (v : Value)
  | InvalidInfixOperator (op : InfixOp) (l r : Value)
  | InvalidSiPrefix (p : SiPrefix) (v : Value)
  | UnitError (u : UnitError)
deriving DecidableEq, Repr

/-- The statement-evaluation error type ItemError of runtime.rs. -/
inductive ItemError where
  | UnitRedeclared (n : String)
  | VariableRedefined (n : String)
  | FunctionRedefined (n : String)
  | EvalError (e : EvalError)
deriving DecidableEq, Repr

/-- The evaluation state Runtime of runtime.rs: declared unit names, bound
variables, and declared functions (parameter names with unevaluated body). -/
structure Runtime where
  units : List String
  vars : List (String × Value)
  functions : List (String × (List String × Expression))

/-- Runtime::new, the empty evaluation state. -/
def Runtime.new : Runtime := ⟨[], [], []⟩

/-- Runtime::lookup: variables take precedence over units, units over
functions; a declared unit resolves to Number 1 with the named unit, a
declared function to a FunctionRef with the dimensionless unit. -/
def Runtime.lookup (rt : Runtime) (name : String) : Option Value :=
  match alistGet rt.vars name with
  | some val => some val
  | none =>
    if name ∈ rt.units then
      some ⟨ValueKind.Number 1, UnitV.new_named name⟩
    else if (alistGet rt.functions name).isSome then
      some ⟨ValueKind.FunctionRef name, UnitV.new⟩
    else
      none

/-- Embedding of BigDecimal::to_isize on an arbitrary-precision decimal:
the numerator when the value is an integer fitting a 64-bit signed machine
word, None otherwise. -/
def toIsize (q : ℚ) : Option Int :=
  if q.den = 1 ∧ -(2 ^ 63) ≤ q.num ∧ q.num < 2 ^ 63 then some q.num else none

/-- Truncation of a rational toward zero, the rounding BigDecimal's
remainder uses. -/
def ratTrunc (q : ℚ) : Int := q.num.tdiv (q.den : Int)

/-- Embedding of the bigdecimal remainder a % b for b nonzero: the
truncated-division remainder, carrying the sign of the dividend. -/
def decRem (a b : ℚ) : ℚ := a - (ratTrunc (a / b) : ℚ) * b

/-- The repeated-multiplication loop of the Pow arm of
Runtime::eval_infix_op: res starts at 1 and is multiplied by the base
once per iteration. -/
def powLoop (a : ℚ) : Nat → ℚ
  | 0 => 1
  | n + 1 => powLoop a n * a

/-- The helper apply_prefix of runtime.rs: scale a numeric magnitude by the
prefix's power-of-ten factor (division for the small prefixes,
multiplication for the large ones, both exact decimal operations); the
Unit is untouched and prefixing a FunctionRef is an InvalidSiPrefix
error. -/
def applyPrefix (p : SiPrefix) (val : Value) : RtResult EvalError Value :=
  match p, val.kind with
  | SiPrefix.Femto, ValueKind.Number x => RtResult.ok ⟨ValueKind.Number (x / 1000000000000000), val.unit⟩
  | SiPrefix.Pico, ValueKind.Number x => RtResult.ok ⟨ValueKind.Number (x / 1000000000000), val.unit⟩
  | SiPrefix.Nano, ValueKind.Number x => RtResult.ok ⟨ValueKind.Number (x / 1000000000), val.unit⟩
  | SiPrefix.Micro, ValueKind.Number x => RtResult.ok ⟨ValueKind.Number (x / 1000000), val.unit⟩
  | SiPrefix.Milli, ValueKind.Number x => RtResult.ok ⟨ValueKind.Number (x / 1000), val.unit⟩
  | SiPrefix.Centi, ValueKind.Number x => RtResult.ok ⟨ValueKind.Number (x / 100), val.unit⟩
  | SiPrefix.Deci, ValueKind.Number x => RtResult.ok ⟨ValueKind.Number (x / 10), val.unit⟩
  | SiPrefix.Deca, ValueKind.Number x => RtResult.ok ⟨ValueKind.Number (x * 10), val.unit⟩
  | SiPrefix.Hecto, ValueKind.Number x => RtResult.ok ⟨ValueKind.Number (x * 100), val.unit⟩
  | SiPrefix.Kilo, ValueKind.Number x => RtResult.ok ⟨ValueKind.Number (x * 1000), val.unit⟩
  | SiPrefix.Mega, ValueKind.Number x => RtResult.ok ⟨ValueKind.Number (x * 1000000), val.unit⟩
  | SiPrefix.Giga, ValueKind.Number x => RtResult.ok ⟨ValueKind.Number (x * 1000000000), val.unit⟩
  | SiPrefix.Tera, ValueKind.Number x => RtResult.ok ⟨ValueKind.Number (x * 1000000000000), val.unit⟩
  | SiPrefix.Peta, ValueKind.Number x => RtResult.ok ⟨ValueKind.Number (x * 1000000000000000), val.unit⟩
  | _, ValueKind.FunctionRef _ => RtResult.err (EvalError.InvalidSiPrefix p val)

/-- The helper infix_unit of runtime.rs: joint unit validation and result
Unit computation.  Add, Sub and Mod demand equal units; Mul and Div combine
them; Pow demands a dimensionless integer exponent (converted with
to_isize and unwrap, hence the possible panic) and raises the left unit to
it; the comparison operators are left unimplemented (todo panic). -/
def infix_unit (op : InfixOp) (lhs rhs : Value) : RtResult UnitError UnitV :=
  match op with
  | InfixOp.Add | InfixOp.Sub | InfixOp.Mod =>
    if lhs.unit = rhs.unit then
      RtResult.ok lhs.unit
    else
      RtResult.err (UnitError.IncompatibleUnits op lhs.unit rhs.unit)
  | InfixOp.Mul => RtResult.ok (lhs.unit.multiply rhs.unit)
  | InfixOp.Div => RtResult.ok (lhs.unit.divide rhs.unit)
  | InfixOp.Pow =>
    if rhs.unit ≠ UnitV.new then
      RtResult.err (UnitError.IncompatibleUnits op lhs.unit rhs.unit)
    else
      match rhs.kind with
      | ValueKind.Number n =>
        if n.den = 1 then
          match toIsize n with
          | some p => RtResult.ok (lhs.unit.pow p)
          | none => RtResult.panic unwrapMsg
        else
          RtResult.err (UnitError.InvalidPowerValue lhs.unit rhs.kind)
      | ValueKind.FunctionRef _ =>
        RtResult.err (UnitError.InvalidPowerValue lhs.unit rhs.kind)
  | InfixOp.Eq => RtResult.panic todoMsg
  | InfixOp.Neq => RtResult.panic todoMsg
  | InfixOp.Gt => RtResult.panic todoMsg

/-- The value-level body of Runtime::eval_infix_op, applied after both
operands have evaluated: validate units through infix_unit, then dispatch
on the operator and the operand kinds.  Division and remainder panic on a
zero divisor (bigdecimal semantics), the Pow arm repeats multiplication
and inverts on a negative exponent (inversion of zero being a division by
zero inside the bigdecimal inverse), the comparison arms are todo panics,
and every non-numeric operand pair is an InvalidInfixOperator error.
The iteration count is the unbounded absolute value of the exponent,
whereas the source takes the absolute value on a machine word, which
overflows at the minimum word (a debug abort, a wrap to an empty loop in
release); that single exponent diverges from the source and every
statement about the Pow arm excludes it with a strict lower bound. -/
def evalInfixVals (op : InfixOp) (l r : Value) : RtResult EvalError Value :=
  match infix_unit op l r with
  | RtResult.panic m => RtResult.panic m
  | RtResult.err u => RtResult.err (EvalError.UnitError u)
  | RtResult.ok unit =>
    match op, l.kind, r.kind with
    | InfixOp.Add, ValueKind.Number a, ValueKind.Number b =>
      RtResult.ok ⟨ValueKind.Number (a + b), unit⟩
    | InfixOp.Sub, ValueKind.Number a, ValueKind.Number b =>
      RtResult.ok ⟨ValueKind.Number (a - b), unit⟩
    | InfixOp.Mul, ValueKind.Number a, ValueKind.Number b =>
      RtResult.ok ⟨ValueKind.Number (a * b), unit⟩
    | InfixOp.Div, ValueKind.Number a, ValueKind.Number b =>
      if b = 0 then RtResult.panic divZeroMsg
      else RtResult.ok ⟨ValueKind.Number (a / b), unit⟩
    | InfixOp.Mod, ValueKind.Number a, ValueKind.Number b =>
      if b = 0 then RtResult.panic divZeroMsg
      else RtResult.ok ⟨ValueKind.Number (decRem a b), unit⟩
    | InfixOp.Pow, ValueKind.Number a, ValueKind.Number b =>
      if b.den = 1 then
        match toIsize b with
        | some p =>
          let res := powLoop a p.natAbs
          if p < 0 then
            if res = 0 then RtResult.panic divZeroMsg
            else RtResult.ok ⟨ValueKind.Number res⁻¹, unit⟩
          else RtResult.ok ⟨ValueKind.Number res, unit⟩
        | none => RtResult.panic unwrapMsg
      else RtResult.panic fpPowMsg
    | InfixOp.Eq, ValueKind.Number _, ValueKind.Number _ => RtResult.panic todoMsg
    | InfixOp.Neq, ValueKind.Number _, ValueKind.Number _ => RtResult.panic todoMsg
    | InfixOp.Gt, ValueKind.Number _, ValueKind.Number _ => RtResult.panic todoMsg
    | _, _, _ => RtResult.err (EvalError.InvalidInfixOperator op l r)

/-- Runtime::eval_expr, the recursive expression evaluator.  Read-only over
the state: literals are dimensionless numbers, bare names resolve through
the exact name first and the prefixed decomposition second, function calls
are a todo panic, the prefix operators act on numbers only, infix nodes
evaluate both operands and defer to the value-level infix body, unit-of
keeps only the unit, and parentheses are transparent. -/
def Runtime.eval_expr (rt : Runtime) : Expression → RtResult EvalError Value
  | Expression.IntegerLit v => RtResult.ok ⟨ValueKind.Number v, UnitV.new⟩
  | Expression.FloatLit v => RtResult.ok ⟨ValueKind.Number v, UnitV.new⟩
  | Expression.MaybeUnitPrefix name full_name pfx =>
    match rt.lookup full_name with
    | some val => RtResult.ok val
    | none =>
      match rt.lookup name with
      | some val => applyPrefix pfx val
      | none => RtResult.err (EvalError.UndefinedName full_name)
  | Expression.Variable id =>
    match rt.lookup id with
    | some v => RtResult.ok v
    | none => RtResult.err (EvalError.UndefinedName id)
  | Expression.Call _ _ => RtResult.panic todoMsg
  | Expression.PrefixOpE op e =>
    match rt.eval_expr e with
    | RtResult.panic m => RtResult.panic m
    | RtResult.err er => RtResult.err er
    | RtResult.ok val =>
      match op, val.kind with
      | PrefixOp.Pos, ValueKind.Number _ => RtResult.ok val
      | PrefixOp.Neg, ValueKind.Number num => RtResult.ok ⟨ValueKind.Number (-num), val.unit⟩
      | _, ValueKind.FunctionRef _ => RtResult.err (EvalError.InvalidPrefixOperator op val)
  | Expression.InfixOpE op lhs rhs =>
    match rt.eval_expr lhs with
    | RtResult.panic m => RtResult.panic m
    | RtResult.err er => RtResult.err er
    | RtResult.ok l =>
      match rt.eval_expr rhs with
      | RtResult.panic m => RtResult.panic m
      | RtResult.err er => RtResult.err er
      | RtResult.ok r => evalInfixVals op l r
  | Expression.UnitOf e =>
    match rt.eval_expr e with
    | RtResult.panic m => RtResult.panic m
    | RtResult.err er => RtResult.err er
    | RtResult.ok val => RtResult.ok ⟨ValueKind.Number 1, val.unit⟩
  | Expression.Parenthesised e => rt.eval_expr e

/-- Runtime::eval_infix_op: evaluate both operands (no short-circuit), then
apply the value-level infix body.  The branch on evaluated operands is
shared with the infix case of eval_expr through evalInfixVals. -/
def Runtime.eval_infix_op (rt : Runtime) (op : InfixOp) (lhs rhs : Expression) :
    RtResult EvalError Value :=
  match rt.eval_expr lhs with
  | RtResult.panic m => RtResult.panic m
  | RtResult.err er => RtResult.err er
  | RtResult.ok l =>
    match rt.eval_expr rhs with
    | RtResult.panic m => RtResult.panic m
    | RtResult.err er => RtResult.err er
    | RtResult.ok r => evalInfixVals op l r

/-- Runtime::line_item_to_item, the statement classifier: the ambiguous
name = expr line becomes an equality expression when the name is a declared
unit, a bound variable or a declared function, and a fresh declaration
otherwise; the other line forms pass through, the empty line classifies to
nothing. -/
def Runtime.line_item_to_item (rt : Runtime) : LineItem → Option Item
  | LineItem.Empty => none
  | LineItem.UnitDeclaration name => some (Item.UnitDeclaration name)
  | LineItem.MaybeDeclarationOrEqualityExpression decl =>
    let name := decl.declaration_name
    let is_defined := name ∈ rt.units ∨ (alistGet rt.vars name).isSome ∨
      (alistGet rt.functions name).isSome
    if is_defined then some decl.into_expression else some decl.into_declaration
  | LineItem.PrintedExpression e => some (Item.PrintedExpression e)
  | LineItem.SilentExpression e => some (Item.SilentExpression e)

/-- Runtime::eval_item, the statement evaluator, returned together with the
state after the call (the Rust method mutates self).  A unit declaration is
inserted first and rejected as redeclared when the insert finds it present
(leaving the set unchanged); variable and function declarations go through
the entry API, erroring on an occupied entry without writing; a variable
declaration evaluates its right-hand side before touching the map. -/
def Runtime.eval_item (rt : Runtime) : Item → RtResult ItemError EvalResult × Runtime
  | Item.UnitDeclaration name =>
    let p := hashsetInsert name rt.units
    let rt' := { rt with units := p.2 }
    if p.1 = false then (RtResult.err (ItemError.UnitRedeclared name), rt')
    else (RtResult.ok EvalResult.Empty, rt')
  | Item.VariableDeclaration name rhs =>
    match rt.eval_expr rhs with
    | RtResult.panic m => (RtResult.panic m, rt)
    | RtResult.err e => (RtResult.err (ItemError.EvalError e), rt)
    | RtResult.ok value =>
      match alistGet rt.vars name with
      | some _ => (RtResult.err (ItemError.VariableRedefined name), rt)
      | none =>
        (RtResult.ok (EvalResult.Value value),
         { rt with vars := (name, value) :: rt.vars })
  | Item.FunctionDeclaration name arg_names rhs =>
    match alistGet rt.functions name with
    | some _ => (RtResult.err (ItemError.FunctionRedefined name), rt)
    | none =>
      (RtResult.ok EvalResult.Empty,
       { rt with functions := (name, (arg_names, rhs)) :: rt.functions })
  | Item.PrintedExpression e =>
    match rt.eval_expr e with
    | RtResult.panic m => (RtResult.panic m, rt)
    | RtResult.err er => (RtResult.err (ItemError.EvalError er), rt)
    | RtResult.ok val => (RtResult.ok (EvalResult.PrintValue e val), rt)
  | Item.SilentExpression e =>
    match rt.eval_expr e with
    | RtResult.panic m => (RtResult.panic m, rt)
    | RtResult.err er => (RtResult.err (ItemError.EvalError er), rt)
    | RtResult.ok val => (RtResult.ok (EvalResult.Value val), rt)

/-- Runtime::eval_line_item: classify the raw line, then evaluate the
resulting statement; an empty classification is an Empty result. -/
def Runtime.eval_line_item (rt : Runtime) (item : LineItem) :
    RtResult ItemError EvalResult × Runtime :=
  match rt.line_item_to_item item with
  | some it => rt.eval_item it
  | none => (RtResult.ok EvalResult.Empty, rt)

/-! ## Helper lemmas -/

/-- The repeated-multiplication loop computes exact rational exponentiation
by a natural number. -/
theorem powLoop_eq_pow (a : ℚ) (n : Nat) : powLoop a n = a ^ n := by
  induction n with
  | zero => rfl
  | succ k ih => simp [powLoop, ih, pow_succ]

/-! ## Claims -/

/-- C3: for every name and every evaluation state, lookup follows the
precedence order variable, then unit, then function: a bound variable
resolves to its stored Value; otherwise a declared unit resolves to
Number 1 with the named unit (exponent 1 for the name, 0 elsewhere);
otherwise a declared function resolves to a FunctionRef with the
dimensionless unit; otherwise the lookup is None. -/
theorem lookup_precedence (rt : Runtime) (n : String) :
    (∀ v, alistGet rt.vars n = some v → rt.lookup n = some v)
  ∧ (alistGet rt.vars n = none → n ∈ rt.units →
      rt.lookup n = some ⟨ValueKind.Number 1, UnitV.new_named n⟩
      ∧ (UnitV.new_named n).exponentOf n = 1
      ∧ ∀ m, m ≠ n → (UnitV.new_named n).exponentOf m = 0)
  ∧ (alistGet rt.vars n = none → n ∉ rt.units → (alistGet rt.functions n).isSome →
      rt.lookup n = some ⟨ValueKind.FunctionRef n, UnitV.new⟩)
  ∧ (alistGet rt.vars n = none → n ∉ rt.units → alistGet rt.functions n = none →
      rt.lookup n = none) := by
  refine ⟨?_, ?_, ?_, ?_⟩
  · intro v hv
    simp [Runtime.lookup, hv]
  · intro hv hu
    refine ⟨by simp [Runtime.lookup, hv, hu], ?_, ?_⟩
    · simp [UnitV.exponentOf, UnitV.new_named, alistGet]
    · intro m hm
      simp [UnitV.exponentOf, UnitV.new_named, alistGet, Ne.symm hm]
  · intro hv hu hf
    simp [Runtime.lookup, hv, hu, hf]
  · intro hv hu hf
    simp [Runtime.lookup, hv, hu, hf]

/-- Concrete states for the witnesses: a state in which the name x is both
a bound variable and a declared unit, u is a unit, f is a function. -/
def rtW : Runtime :=
  ⟨["x", "u"], [("x", ⟨ValueKind.Number 7, []⟩)],
   [("f", ([], Expression.IntegerLit 0))]⟩

/-- Witness for C3, at the concrete state rtW: the variable binding of x
shadows the unit x; u resolves as a unit, f as a function, z to None. -/
theorem lookup_precedence_witness :
    rtW.lookup "x" = some ⟨ValueKind.Number 7, []⟩
  ∧ rtW.lookup "u" = some ⟨ValueKind.Number 1, UnitV.new_named "u"⟩
  ∧ rtW.lookup "f" = some ⟨ValueKind.FunctionRef "f", UnitV.new⟩
  ∧ rtW.lookup "z" = none := by
  refine ⟨?_, ?_, ?_, ?_⟩
  · exact (lookup_precedence rtW "x").1 _ (by simp [rtW, alistGet])
  · exact ((lookup_precedence rtW "u").2.1 (by simp [rtW, alistGet]) (by simp [rtW])).1
  · exact (lookup_precedence rtW "f").2.2.1 (by simp [rtW, alistGet]) (by simp [rtW])
      (by simp [rtW, alistGet])
  · exact (lookup_precedence rtW "z").2.2.2 (by simp [rtW, alistGet]) (by simp [rtW])
      (by simp [rtW, alistGet])

/-- Spec-side table of SI-prefix exponents (section 4.5a 's full table),
to be compared with the scaling the code performs. -/
def siExpSpec : SiPrefix → Int
  | SiPrefix.Femto => -15
  | SiPrefix.Pico => -12
  | SiPrefix.Nano => -9
  | SiPrefix.Micro => -6
  | SiPrefix.Milli => -3
  | SiPrefix.Centi => -2
  | SiPrefix.Deci => -1
  | SiPrefix.Deca => 1
  | SiPrefix.Hecto => 2
  | SiPrefix.Kilo => 3
  | SiPrefix.Mega => 6
  | SiPrefix.Giga => 9
  | SiPrefix.Tera => 12
  | SiPrefix.Peta => 15

/-- C8: applying any SI prefix to a Number scales the magnitude by the
prefix's exact power-of-ten factor from the fixed table (femto ten to the
minus fifteenth through peta ten to the fifteenth), in exact rational
arithmetic, leaving the Unit unchanged; applying any SI prefix to a
FunctionRef fails with InvalidSiPrefix. -/
theorem applyPrefix_scales (p : SiPrefix) (x : ℚ) (u : UnitV) (f : String) :
    applyPrefix p ⟨ValueKind.Number x, u⟩
      = RtResult.ok ⟨ValueKind.Number (x * (10 : ℚ) ^ siExpSpec p), u⟩
  ∧ applyPrefix p ⟨ValueKind.FunctionRef f, u⟩
      = RtResult.err (EvalError.InvalidSiPrefix p ⟨ValueKind.FunctionRef f, u⟩) := by
  constructor
  · cases p <;> simp only [applyPrefix, siExpSpec, RtResult.ok.injEq, Value.mk.injEq,
      ValueKind.Number.injEq, and_true] <;>
    · norm_num [zpow_neg]
      try ring
  · cases p <;> rfl

/-- C7: a bare-name reference carrying a full name and a (prefix, base
name) decomposition resolves the exact full name first and returns that
Value unscaled; only when the full name is unknown is the base name looked
up and the SI-prefix scaling applied to its Value; when both lookups fail
the evaluation errors with UndefinedName on the full name. -/
theorem maybe_unit_prefix_resolution (rt : Runtime) (name full : String) (p : SiPrefix) :
    (∀ v, rt.lookup full = some v →
       rt.eval_expr (Expression.MaybeUnitPrefix name full p) = RtResult.ok v)
  ∧ (rt.lookup full = none → ∀ v, rt.lookup name = some v →
       rt.eval_expr (Expression.MaybeUnitPrefix name full p) = applyPrefix p v)
  ∧ (rt.lookup full = none → rt.lookup name = none →
       rt.eval_expr (Expression.MaybeUnitPrefix name full p)
         = RtResult.err (EvalError.UndefinedName full)) := by
  refine ⟨?_, ?_, ?_⟩
  · intro v hv
    simp [Runtime.eval_expr, hv]
  · intro hfull v hv
    simp [Runtime.eval_expr, hfull, hv]
  · intro hfull hname
    simp [Runtime.eval_expr, hfull, hname]

/-- A state declaring both the unit ms and the unit s, for the SI-prefix
precedence witness. -/
def rtMS : Runtime := ⟨["ms", "s"], [], []⟩

/-- A state declaring only the unit s. -/
def rtS : Runtime := ⟨["s"], [], []⟩

/-- Witness for C7: with ms and s both declared, the token ms resolves to
the exact unit ms unscaled; with only s declared it resolves to milli
applied to the unit s, scaling the magnitude to 1/1000 and keeping the
unit of s; with neither declared the result is UndefinedName. -/
theorem maybe_unit_prefix_resolution_witness :
    rtMS.eval_expr (Expression.MaybeUnitPrefix "s" "ms" SiPrefix.Milli)
      = RtResult.ok ⟨ValueKind.Number 1, UnitV.new_named "ms"⟩
  ∧ rtS.eval_expr (Expression.MaybeUnitPrefix "s" "ms" SiPrefix.Milli)
      = RtResult.ok ⟨ValueKind.Number (1 / 1000), UnitV.new_named "s"⟩
  ∧ Runtime.new.eval_expr (Expression.MaybeUnitPrefix "s" "ms" SiPrefix.Milli)
      = RtResult.err (EvalError.UndefinedName "ms") := by
  refine ⟨?_, ?_, ?_⟩
  · exact (maybe_unit_prefix_resolution rtMS "s" "ms" SiPrefix.Milli).1 _
      (by simp [rtMS, Runtime.lookup, alistGet])
  · have h := (maybe_unit_prefix_resolution rtS "s" "ms" SiPrefix.Milli).2.1
      (by simp [rtS, Runtime.lookup, alistGet])
      ⟨ValueKind.Number 1, UnitV.new_named "s"⟩
      (by simp [rtS, Runtime.lookup, alistGet])
    rw [h]
    norm_num [applyPrefix]
  · exact (maybe_unit_prefix_resolution Runtime.new "s" "ms" SiPrefix.Milli).2.2
      (by simp [Runtime.new, Runtime.lookup, alistGet])
      (by simp [Runtime.new, Runtime.lookup, alistGet])

/-- C2: a line of the ambiguous form name = expr is classified against the
current state: when the name is a declared unit, a bound variable or a
declared function it becomes an equality expression over the existing
binding; otherwise it becomes a new declaration, a FunctionDeclaration when
the name carries a parameter list and a VariableDeclaration when not. -/
theorem classifier_correct (rt : Runtime) (d : DeclOrEq) :
    ((d.name ∈ rt.units ∨ (alistGet rt.vars d.name).isSome ∨
        (alistGet rt.functions d.name).isSome) →
      rt.line_item_to_item (LineItem.MaybeDeclarationOrEqualityExpression d)
        = some (Item.SilentExpression
            (Expression.InfixOpE InfixOp.Eq (Expression.Variable d.name) d.rhs)))
  ∧ (¬(d.name ∈ rt.units ∨ (alistGet rt.vars d.name).isSome ∨
        (alistGet rt.functions d.name).isSome) →
      ∀ ps, d.args = some ps →
        rt.line_item_to_item (LineItem.MaybeDeclarationOrEqualityExpression d)
          = some (Item.FunctionDeclaration d.name ps d.rhs))
  ∧ (¬(d.name ∈ rt.units ∨ (alistGet rt.vars d.name).isSome ∨
        (alistGet rt.functions d.name).isSome) →
      d.args = none →
        rt.line_item_to_item (LineItem.MaybeDeclarationOrEqualityExpression d)
          = some (Item.VariableDeclaration d.name d.rhs)) := by
  refine ⟨?_, ?_, ?_⟩
  · intro h
    simp [Runtime.line_item_to_item, DeclOrEq.declaration_name, h,
      DeclOrEq.into_expression]
  · intro h ps hps
    simp [Runtime.line_item_to_item, DeclOrEq.declaration_name, h,
      DeclOrEq.into_declaration, hps]
  · intro h hps
    simp [Runtime.line_item_to_item, DeclOrEq.declaration_name, h,
      DeclOrEq.into_declaration, hps]

/-- The ambiguous line x = 5 with no parameter list. -/
def dX : DeclOrEq := ⟨"x", none, Expression.IntegerLit 5⟩

/-- The ambiguous line g(a) = 5 with parameter list [a]. -/
def dG : DeclOrEq := ⟨"g", some ["a"], Expression.IntegerLit 5⟩

/-- Witness for C2: against the empty state, x = 5 classifies to a variable
declaration and g(a) = 5 to a function declaration; against the state rtW
in which x is bound, x = 5 classifies to the equality expression. -/
theorem classifier_correct_witness :
    Runtime.new.line_item_to_item (LineItem.MaybeDeclarationOrEqualityExpression dX)
      = some (Item.VariableDeclaration "x" (Expression.IntegerLit 5))
  ∧ Runtime.new.line_item_to_item (LineItem.MaybeDeclarationOrEqualityExpression dG)
      = some (Item.FunctionDeclaration "g" ["a"] (Expression.IntegerLit 5))
  ∧ rtW.line_item_to_item (LineItem.MaybeDeclarationOrEqualityExpression dX)
      = some (Item.SilentExpression
          (Expression.InfixOpE InfixOp.Eq (Expression.Variable "x")
            (Expression.IntegerLit 5))) := by
  refine ⟨?_, ?_, ?_⟩
  · exact (classifier_correct Runtime.new dX).2.2
      (by simp [Runtime.new, dX, alistGet]) rfl
  · exact (classifier_correct Runtime.new dG).2.1
      (by simp [Runtime.new, dG, alistGet]) ["a"] rfl
  · exact (classifier_correct rtW dX).1 (Or.inr (Or.inl (by simp [rtW, dX, alistGet])))

/-- C1: a statement whose evaluation returns an error (a redefinition error
or any evaluation error) leaves the evaluation state exactly as it was
before the statement began: no partial writes to the unit set, the variable
map or the function map. -/
theorem eval_item_error_preserves_state (rt : Runtime) (it : Item) (e : ItemError)
    (h : (rt.eval_item it).1 = RtResult.err e) :
    (rt.eval_item it).2 = rt := by
  cases it with
  | UnitDeclaration name =>
    by_cases hm : name ∈ rt.units
    · simp [Runtime.eval_item, hashsetInsert, hm]
    · simp [Runtime.eval_item, hashsetInsert, hm] at h
  | VariableDeclaration name rhs =>
    cases hev : rt.eval_expr rhs with
    | panic m => simp [Runtime.eval_item, hev] at h
    | err er => simp [Runtime.eval_item, hev]
    | ok v =>
      cases hg : alistGet rt.vars name with
      | none => simp [Runtime.eval_item, hev, hg] at h
      | some w => simp [Runtime.eval_item, hev, hg]
  | FunctionDeclaration name ps rhs =>
    cases hg : alistGet rt.functions name with
    | none => simp [Runtime.eval_item, hg] at h
    | some w => simp [Runtime.eval_item, hg]
  | PrintedExpression ex =>
    cases hev : rt.eval_expr ex with
    | panic m => simp [Runtime.eval_item, hev] at h
    | err er => simp [Runtime.eval_item, hev]
    | ok v => simp [Runtime.eval_item, hev] at h
  | SilentExpression ex =>
    cases hev : rt.eval_expr ex with
    | panic m => simp [Runtime.eval_item, hev] at h
    | err er => simp [Runtime.eval_item, hev]
    | ok v => simp [Runtime.eval_item, hev] at h

/-- A state in which x is already bound to 5 (dimensionless). -/
def rtX5 : Runtime := ⟨[], [("x", ⟨ValueKind.Number 5, []⟩)], []⟩

/-- Witness for C1: in a state binding x to 5, the second declaration
x = 7 fails with VariableRedefined and the state after the call is exactly
the state before, so x is still bound to 5. -/
theorem eval_item_error_preserves_state_witness :
    (rtX5.eval_item (Item.VariableDeclaration "x" (Expression.IntegerLit 7))).2 = rtX5
  ∧ alistGet (rtX5.eval_item (Item.VariableDeclaration "x" (Expression.IntegerLit 7))).2.vars "x"
      = some ⟨ValueKind.Number 5, []⟩ := by
  have hst := eval_item_error_preserves_state rtX5
    (Item.VariableDeclaration "x" (Expression.IntegerLit 7))
    (ItemError.VariableRedefined "x")
    (by simp [rtX5, Runtime.eval_item, Runtime.eval_expr, alistGet])
  exact ⟨hst, by rw [hst]; simp [rtX5, alistGet]⟩

/-- C4: over two successfully evaluated Number operands, Add, Sub and Mod
fail with IncompatibleUnits when the operand Units differ and otherwise
return the exact decimal sum, difference or remainder carrying the shared
Unit; Mul returns the product with the multiplied Units and Div (nonzero
divisor) the quotient with the divided Units. -/
theorem infix_arith_correct (rt : Runtime) (lhs rhs : Expression) (a b : ℚ) (ua ub : UnitV)
    (hl : rt.eval_expr lhs = RtResult.ok ⟨ValueKind.Number a, ua⟩)
    (hr : rt.eval_expr rhs = RtResult.ok ⟨ValueKind.Number b, ub⟩) :
    (∀ op, (op = InfixOp.Add ∨ op = InfixOp.Sub ∨ op = InfixOp.Mod) → ua ≠ ub →
       rt.eval_infix_op op lhs rhs
         = RtResult.err (EvalError.UnitError (UnitError.IncompatibleUnits op ua ub)))
  ∧ (ua = ub →
       rt.eval_infix_op InfixOp.Add lhs rhs = RtResult.ok ⟨ValueKind.Number (a + b), ua⟩)
  ∧ (ua = ub →
       rt.eval_infix_op InfixOp.Sub lhs rhs = RtResult.ok ⟨ValueKind.Number (a - b), ua⟩)
  ∧ (ua = ub → b ≠ 0 →
       rt.eval_infix_op InfixOp.Mod lhs rhs = RtResult.ok ⟨ValueKind.Number (decRem a b), ua⟩)
  ∧ (rt.eval_infix_op InfixOp.Mul lhs rhs
       = RtResult.ok ⟨ValueKind.Number (a * b), UnitV.multiply ua ub⟩)
  ∧ (b ≠ 0 →
       rt.eval_infix_op InfixOp.Div lhs rhs
         = RtResult.ok ⟨ValueKind.Number (a / b), UnitV.divide ua ub⟩) := by
  refine ⟨?_, ?_, ?_, ?_, ?_, ?_⟩
  · rintro op (rfl | rfl | rfl) hne <;>
      simp [Runtime.eval_infix_op, hl, hr, evalInfixVals, infix_unit, hne]
  · intro hu
    simp [Runtime.eval_infix_op, hl, hr, evalInfixVals, infix_unit, hu]
  · intro hu
    simp [Runtime.eval_infix_op, hl, hr, evalInfixVals, infix_unit, hu]
  · intro hu hb
    simp [Runtime.eval_infix_op, hl, hr, evalInfixVals, infix_unit, hu, hb]
  · simp [Runtime.eval_infix_op, hl, hr, evalInfixVals, infix_unit]
  · intro hb
    simp [Runtime.eval_infix_op, hl, hr, evalInfixVals, infix_unit, hb]

/-- A state declaring the units meter and second. -/
def rtU : Runtime := ⟨["meter", "second"], [], []⟩

/-- The expression 1 * meter, evaluating to 1 with unit meter. -/
def oneMeter : Expression :=
  Expression.InfixOpE InfixOp.Mul (Expression.IntegerLit 1) (Expression.Variable "meter")

/-- The expression 1 * second, evaluating to 1 with unit second. -/
def oneSecond : Expression :=
  Expression.InfixOpE InfixOp.Mul (Expression.IntegerLit 1) (Expression.Variable "second")

/-- Witness for C4: adding 1 meter to 1 second fails with
IncompatibleUnits, while multiplying them succeeds with unit
meter to the first times second to the first. -/
theorem infix_arith_correct_witness :
    rtU.eval_infix_op InfixOp.Add oneMeter oneSecond
      = RtResult.err (EvalError.UnitError (UnitError.IncompatibleUnits InfixOp.Add
          [("meter", 1)] [("second", 1)]))
  ∧ rtU.eval_infix_op InfixOp.Mul oneMeter oneSecond
      = RtResult.ok ⟨ValueKind.Number 1, [("meter", 1), ("second", 1)]⟩ := by
  have hl : rtU.eval_expr oneMeter = RtResult.ok ⟨ValueKind.Number 1, [("meter", 1)]⟩ := by
    norm_num [rtU, oneMeter, Runtime.eval_expr, Runtime.lookup, alistGet, evalInfixVals,
      infix_unit, UnitV.multiply, UnitV.new, UnitV.new_named, unitMerge]
  have hr : rtU.eval_expr oneSecond = RtResult.ok ⟨ValueKind.Number 1, [("second", 1)]⟩ := by
    norm_num [rtU, oneSecond, Runtime.eval_expr, Runtime.lookup, alistGet, evalInfixVals,
      infix_unit, UnitV.multiply, UnitV.new, UnitV.new_named, unitMerge]
  have h := infix_arith_correct rtU oneMeter oneSecond 1 1 [("meter", 1)] [("second", 1)] hl hr
  refine ⟨h.1 InfixOp.Add (Or.inl rfl) (by simp), ?_⟩
  have hm := h.2.2.2.2.1
  rw [hm]
  have hlt : ("meter" : String) < "second" := by
    simp
    decide
  norm_num [UnitV.multiply, unitMerge, hlt]

/-- C5: for Pow over two Number operands, a non-dimensionless exponent
Unit is an IncompatibleUnits error and a dimensionless non-integer exponent
an InvalidPowerValue error; otherwise (for exponents strictly between the
signed machine-word bounds — the minimum word is excluded because the
source's absolute value overflows there — and with a nonzero base when the
exponent is negative, matching the panics of the source on the excluded
corners) the result Unit is the left Unit raised
to the exponent and the magnitude is the repeated-multiplication loop
starting from 1, inverted for a negative exponent — exactly: 2 to the 10th
is exactly 1024, 2 to the -1st is exactly 1/2, and exponent 0 yields
magnitude 1 with the dimensionless unit. -/
theorem infix_pow_correct (rt : Runtime) (lhs rhs : Expression) (a b : ℚ) (ua ub : UnitV)
    (hl : rt.eval_expr lhs = RtResult.ok ⟨ValueKind.Number a, ua⟩)
    (hr : rt.eval_expr rhs = RtResult.ok ⟨ValueKind.Number b, ub⟩) :
    (ub ≠ UnitV.new →
       rt.eval_infix_op InfixOp.Pow lhs rhs
         = RtResult.err (EvalError.UnitError (UnitError.IncompatibleUnits InfixOp.Pow ua ub)))
  ∧ (ub = UnitV.new → b.den ≠ 1 →
       rt.eval_infix_op InfixOp.Pow lhs rhs
         = RtResult.err (EvalError.UnitError (UnitError.InvalidPowerValue ua
             (ValueKind.Number b))))
  ∧ (ub = UnitV.new → b.den = 1 → -(2 ^ 63) < b.num → b.num < 2 ^ 63 →
       (0 ≤ b.num ∨ a ≠ 0) →
       rt.eval_infix_op InfixOp.Pow lhs rhs
         = RtResult.ok ⟨ValueKind.Number
             (if b.num < 0 then (powLoop a b.num.natAbs)⁻¹ else powLoop a b.num.natAbs),
             ua.pow b.num⟩)
  ∧ (ub = UnitV.new → b = 0 →
       rt.eval_infix_op InfixOp.Pow lhs rhs = RtResult.ok ⟨ValueKind.Number 1, UnitV.new⟩)
  ∧ Runtime.new.eval_expr
      (Expression.InfixOpE InfixOp.Pow (Expression.IntegerLit 2) (Expression.IntegerLit 10))
      = RtResult.ok ⟨ValueKind.Number 1024, UnitV.new⟩
  ∧ Runtime.new.eval_expr
      (Expression.InfixOpE InfixOp.Pow (Expression.IntegerLit 2)
        (Expression.PrefixOpE PrefixOp.Neg (Expression.IntegerLit 1)))
      = RtResult.ok ⟨ValueKind.Number (1 / 2), UnitV.new⟩ := by
  refine ⟨?_, ?_, ?_, ?_, ?_, ?_⟩
  · intro hu
    simp [Runtime.eval_infix_op, hl, hr, evalInfixVals, infix_unit, hu]
  · intro hu hden
    simp [Runtime.eval_infix_op, hl, hr, evalInfixVals, infix_unit, hu, hden]
  · intro hu hden hlo hhi hnz
    have hti : toIsize b = some b.num := by
      unfold toIsize
      rw [if_pos ⟨hden, le_of_lt hlo, hhi⟩]
    by_cases hneg : b.num < 0
    · have ha : a ≠ 0 := by
        rcases hnz with h0 | h0
        · exact absurd hneg (not_lt.mpr h0)
        · exact h0
      have hres : powLoop a b.num.natAbs ≠ 0 := by
        rw [powLoop_eq_pow]
        exact pow_ne_zero _ ha
      simp [Runtime.eval_infix_op, hl, hr, evalInfixVals, infix_unit, hu, hden, hti,
        hneg, hres]
    · simp [Runtime.eval_infix_op, hl, hr, evalInfixVals, infix_unit, hu, hden, hti, hneg]
  · intro hu hb
    subst hb
    have hti : toIsize 0 = some 0 := by norm_num [toIsize]
    simp [Runtime.eval_infix_op, hl, hr, evalInfixVals, infix_unit, hu, hti, powLoop,
      UnitV.pow, UnitV.new]
  · have hti : toIsize 10 = some 10 := by norm_num [toIsize]
    norm_num [Runtime.eval_expr, evalInfixVals, infix_unit, hti, UnitV.new, UnitV.pow,
      powLoop_eq_pow]
  · have hti : toIsize (-1) = some (-1) := by
      norm_num [toIsize, Rat.den_neg_eq_den, Rat.num_neg_eq_neg_num]
    norm_num [Runtime.eval_expr, evalInfixVals, infix_unit, hti, UnitV.new, UnitV.pow,
      powLoop_eq_pow, Rat.den_neg_eq_den, Rat.num_neg_eq_neg_num]

/-- Witness for C5: 3 raised to the unit-bearing exponent 1 second is an
IncompatibleUnits error; 3 raised to the non-integer 1/2 is an
InvalidPowerValue error; 3 squared evaluates to exactly 9, dimensionless. -/
theorem infix_pow_correct_witness :
    rtU.eval_infix_op InfixOp.Pow (Expression.IntegerLit 3) oneSecond
      = RtResult.err (EvalError.UnitError (UnitError.IncompatibleUnits InfixOp.Pow
          UnitV.new [("second", 1)]))
  ∧ Runtime.new.eval_infix_op InfixOp.Pow (Expression.IntegerLit 3)
      (Expression.FloatLit (1 / 2))
      = RtResult.err (EvalError.UnitError (UnitError.InvalidPowerValue UnitV.new
          (ValueKind.Number (1 / 2))))
  ∧ Runtime.new.eval_infix_op InfixOp.Pow (Expression.IntegerLit 3) (Expression.IntegerLit 2)
      = RtResult.ok ⟨ValueKind.Number 9, UnitV.new⟩ := by
  have hrSec : rtU.eval_expr oneSecond = RtResult.ok ⟨ValueKind.Number 1, [("second", 1)]⟩ := by
    norm_num [rtU, oneSecond, Runtime.eval_expr, Runtime.lookup, alistGet, evalInfixVals,
      infix_unit, UnitV.multiply, UnitV.new, UnitV.new_named, unitMerge]
  refine ⟨?_, ?_, ?_⟩
  · exact (infix_pow_correct rtU (Expression.IntegerLit 3) oneSecond 3 1
      UnitV.new [("second", 1)] (by simp [Runtime.eval_expr]) hrSec).1 (by simp [UnitV.new])
  · exact (infix_pow_correct Runtime.new (Expression.IntegerLit 3)
      (Expression.FloatLit (1 / 2)) 3 (1 / 2) UnitV.new UnitV.new
      (by simp [Runtime.eval_expr]) (by simp [Runtime.eval_expr])).2.1 rfl (by norm_num)
  · have h := (infix_pow_correct Runtime.new (Expression.IntegerLit 3)
      (Expression.IntegerLit 2) 3 2 UnitV.new UnitV.new
      (by simp [Runtime.eval_expr]) (by simp [Runtime.eval_expr])).2.2.1 rfl
      (by norm_num) (by norm_num) (by norm_num) (Or.inl (by norm_num))
    rw [h]
    norm_num [powLoop_eq_pow, UnitV.pow, UnitV.new]

/-- C9: a function-call expression, and an infix Eq, Neq or Gt over two
successfully evaluated Number operands, signal the clearly-marked
not-yet-implemented condition (the todo panic of the source): no partial
or silently wrong value is ever returned for them. -/
theorem unsupported_features_signalled (rt : Runtime) (base : Expression)
    (args : List Expression) (op : InfixOp) (lhs rhs : Expression) (a b : ℚ)
    (ua ub : UnitV)
    (hop : op = InfixOp.Eq ∨ op = InfixOp.Neq ∨ op = InfixOp.Gt)
    (hl : rt.eval_expr lhs = RtResult.ok ⟨ValueKind.Number a, ua⟩)
    (hr : rt.eval_expr rhs = RtResult.ok ⟨ValueKind.Number b, ub⟩) :
    rt.eval_expr (Expression.Call base args) = RtResult.panic todoMsg
  ∧ rt.eval_infix_op op lhs rhs = RtResult.panic todoMsg := by
  constructor
  · simp [Runtime.eval_expr]
  · rcases hop with rfl | rfl | rfl <;>
      simp [Runtime.eval_infix_op, hl, hr, evalInfixVals, infix_unit]

/-- Witness for C9: calling 1 as a function and comparing 1 = 2, both
against the empty state, are the todo panic. -/
theorem unsupported_features_signalled_witness :
    Runtime.new.eval_expr (Expression.Call (Expression.IntegerLit 1) [])
      = RtResult.panic todoMsg
  ∧ Runtime.new.eval_infix_op InfixOp.Eq (Expression.IntegerLit 1) (Expression.IntegerLit 2)
      = RtResult.panic todoMsg := by
  exact unsupported_features_signalled Runtime.new (Expression.IntegerLit 1) []
    InfixOp.Eq (Expression.IntegerLit 1) (Expression.IntegerLit 2) 1 2 UnitV.new UnitV.new
    (Or.inl rfl) (by simp [Runtime.eval_expr]) (by simp [Runtime.eval_expr])

/-- C6 evidence: evaluating 1 / 0 reaches the BigDecimal division, whose
divisor is the zero magnitude, and the outcome of the embedded code is the
division-by-zero panic — a process abort, not a returned error value. -/
theorem div_by_zero_panics :
    Runtime.new.eval_expr
      (Expression.InfixOpE InfixOp.Div (Expression.IntegerLit 1) (Expression.IntegerLit 0))
      = RtResult.panic divZeroMsg := by
  simp [Runtime.eval_expr, evalInfixVals, infix_unit, UnitV.divide, UnitV.new, unitMerge]

/-- The unit-validation helper never aborts with the floating-point-power
message: its only panics are the todo comparisons and the out-of-range
unwrap. -/
theorem infix_unit_no_fp (op : InfixOp) (l r : Value) :
    infix_unit op l r ≠ RtResult.panic fpPowMsg := by
  intro hcon
  cases op <;> simp only [infix_unit] at hcon <;>
    (repeat' split at hcon) <;> simp_all [todoMsg, fpPowMsg, unwrapMsg]

/-- The value-level infix body never aborts with the floating-point-power
message: the only route into that branch is a Pow whose unit validation
succeeded, and a successful unit validation certifies an integer-valued
exponent. -/
theorem evalInfixVals_no_fp (op : InfixOp) (l r : Value) :
    evalInfixVals op l r ≠ RtResult.panic fpPowMsg := by
  intro hcon
  obtain ⟨lk, lu⟩ := l
  obtain ⟨rk, ru⟩ := r
  simp only [evalInfixVals] at hcon
  cases hiu : infix_unit op ⟨lk, lu⟩ ⟨rk, ru⟩ with
  | panic m =>
    rw [hiu] at hcon
    simp at hcon
    subst hcon
    exact infix_unit_no_fp op ⟨lk, lu⟩ ⟨rk, ru⟩ hiu
  | err e0 =>
    rw [hiu] at hcon
    simp at hcon
  | ok u =>
    rw [hiu] at hcon
    cases op
    case Pow =>
      cases lk with
      | FunctionRef f => cases rk <;> simp at hcon
      | Number a =>
        cases rk with
        | FunctionRef f => simp at hcon
        | Number b =>
          by_cases hd : b.den = 1
          · simp only [hd, if_true] at hcon
            cases hti : toIsize b with
            | none =>
              rw [hti] at hcon
              simp [unwrapMsg, fpPowMsg] at hcon
            | some p =>
              rw [hti] at hcon
              simp only [] at hcon
              (repeat' split at hcon) <;> simp_all [divZeroMsg, fpPowMsg]
          · simp only [infix_unit] at hiu
            split at hiu
            · simp at hiu
            · simp [hd] at hiu
    case Eq => simp [infix_unit] at hiu
    case Neq => simp [infix_unit] at hiu
    case Gt => simp [infix_unit] at hiu
    all_goals
      cases lk <;> cases rk <;> simp only [] at hcon <;>
        first
          | simp at hcon
          | (split at hcon <;> simp_all [divZeroMsg, fpPowMsg])

/-- Strong induction on expression size: no evaluation ever yields the
floating-point-power abort message. -/
theorem eval_no_fp_aux (n : Nat) :
    ∀ (rt : Runtime) (e : Expression), sizeOf e ≤ n →
      rt.eval_expr e ≠ RtResult.panic fpPowMsg := by
  induction n with
  | zero =>
    intro rt e hsz
    cases e <;> simp at hsz
  | succ k ih =>
    intro rt e hsz
    cases e with
    | IntegerLit v => simp [Runtime.eval_expr]
    | FloatLit v => simp [Runtime.eval_expr]
    | MaybeUnitPrefix name full p =>
      intro hcon
      simp only [Runtime.eval_expr] at hcon
      cases hfull : rt.lookup full with
      | some v =>
        rw [hfull] at hcon
        simp at hcon
      | none =>
        rw [hfull] at hcon
        cases hname : rt.lookup name with
        | some v =>
          rw [hname] at hcon
          simp only [] at hcon
          obtain ⟨vk, vu⟩ := v
          cases vk <;> cases p <;> simp [applyPrefix] at hcon
        | none =>
          rw [hname] at hcon
          simp at hcon
    | Variable id =>
      intro hcon
      simp only [Runtime.eval_expr] at hcon
      cases hid : rt.lookup id with
      | some v =>
        rw [hid] at hcon
        simp at hcon
      | none =>
        rw [hid] at hcon
        simp at hcon
    | Call base args => simp [Runtime.eval_expr, todoMsg, fpPowMsg]
    | PrefixOpE op e1 =>
      intro hcon
      have h1 : sizeOf e1 ≤ k := by simp at hsz; omega
      simp only [Runtime.eval_expr] at hcon
      cases hev : rt.eval_expr e1 with
      | panic m =>
        rw [hev] at hcon
        simp at hcon
        subst hcon
        exact ih rt e1 h1 hev
      | err er =>
        rw [hev] at hcon
        simp at hcon
      | ok v =>
        rw [hev] at hcon
        obtain ⟨vk, vu⟩ := v
        cases op <;> cases vk <;> simp at hcon
    | InfixOpE op lhs rhs =>
      intro hcon
      have hszl : sizeOf lhs ≤ k := by simp at hsz; omega
      have hszr : sizeOf rhs ≤ k := by simp at hsz; omega
      simp only [Runtime.eval_expr] at hcon
      cases hl' : rt.eval_expr lhs with
      | panic m =>
        rw [hl'] at hcon
        simp at hcon
        subst hcon
        exact ih rt lhs hszl hl'
      | err er =>
        rw [hl'] at hcon
        simp at hcon
      | ok l =>
        rw [hl'] at hcon
        cases hr' : rt.eval_expr rhs with
        | panic m =>
          rw [hr'] at hcon
          simp at hcon
          subst hcon
          exact ih rt rhs hszr hr'
        | err er =>
          rw [hr'] at hcon
          simp at hcon
        | ok r =>
          rw [hr'] at hcon
          simp only [] at hcon
          exact evalInfixVals_no_fp op l r hcon
    | UnitOf e1 =>
      intro hcon
      have h1 : sizeOf e1 ≤ k := by simp at hsz; omega
      simp only [Runtime.eval_expr] at hcon
      cases hev : rt.eval_expr e1 with
      | panic m =>
        rw [hev] at hcon
        simp at hcon
        subst hcon
        exact ih rt e1 h1 hev
      | err er =>
        rw [hev] at hcon
        simp at hcon
      | ok v =>
        rw [hev] at hcon
        simp at hcon
    | Parenthesised e1 =>
      intro hcon
      have h1 : sizeOf e1 ≤ k := by simp at hsz; omega
      simp only [Runtime.eval_expr] at hcon
      exact ih rt e1 h1 hcon

/-- C10: a successful Pow unit validation certifies that the exponent
operand is an integer-valued decimal, because infix_unit runs before the
value computation and rejects every non-integer exponent with
InvalidPowerValue; consequently the floating-point-power abort branch of
the Pow value arm is dead: neither the value-level infix body nor any
expression evaluation can produce that abort. -/
theorem pow_fp_branch_unreachable (l r : Value) (u : UnitV)
    (h : infix_unit InfixOp.Pow l r = RtResult.ok u) :
    (∃ b : ℚ, r.kind = ValueKind.Number b ∧ b.den = 1)
  ∧ (∀ (op : InfixOp) (x y : Value), evalInfixVals op x y ≠ RtResult.panic fpPowMsg)
  ∧ (∀ (rt : Runtime) (e : Expression), rt.eval_expr e ≠ RtResult.panic fpPowMsg) := by
  refine ⟨?_, evalInfixVals_no_fp, fun rt e => eval_no_fp_aux (sizeOf e) rt e le_rfl⟩
  by_cases hu : r.unit = UnitV.new
  · cases hk : r.kind with
    | Number nn =>
      by_cases hd : nn.den = 1
      · exact ⟨nn, rfl, hd⟩
      · simp [infix_unit, hu, hk, hd] at h
    | FunctionRef f =>
      simp [infix_unit, hu, hk] at h
  · simp [infix_unit, hu] at h

/-- Witness for C10: the validation of 3 squared succeeds, so the exponent
2 is certified integer-valued and the abort branch is unreachable. -/
theorem pow_fp_branch_unreachable_witness :
    (∃ b : ℚ, (⟨ValueKind.Number 2, UnitV.new⟩ : Value).kind = ValueKind.Number b
        ∧ b.den = 1)
  ∧ (∀ (op : InfixOp) (x y : Value), evalInfixVals op x y ≠ RtResult.panic fpPowMsg)
  ∧ (∀ (rt : Runtime) (e : Expression), rt.eval_expr e ≠ RtResult.panic fpPowMsg) := by
  exact pow_fp_branch_unreachable ⟨ValueKind.Number 3, UnitV.new⟩
    ⟨ValueKind.Number 2, UnitV.new⟩ UnitV.new
    (by norm_num [infix_unit, UnitV.new, UnitV.pow, toIsize])
